import Mathlib

/-!
# Verification of the trend-scanner boundary logic (`src/app/page.tsx`)

Shallow embedding of the response-extraction, sanitization, scan and publish
logic of the dashboard page.  JavaScript runtime values that can flow through
this code are modelled by `JValue` (JSON-compatible values; numbers are
modelled as integers, which is exact for every value the claims exercise).
`JSON.parse` is an external platform function and is modelled as an arbitrary
parameter `parse : String → Option JValue` (`none` models a parse exception);
theorems quantify over it, and witnesses instantiate it with a concrete
function.
-/

/-- A JSON-compatible JavaScript value.  `obj` carries its fields as an
ordered association list; property lookup takes the first binding, and
objects produced by `JSON.parse` never carry duplicate keys. -/
inductive JValue where
  | null
  | bool (b : Bool)
  | num (n : Int)
  | str (s : String)
  | arr (elems : List JValue)
  | obj (fields : List (String × JValue))

mutual

/-- Model of JavaScript `===` (and `Set` SameValueZero) on the values this
code compares.  Primitives compare by value, exactly as in JS; arrays and
objects are compared structurally, which approximates reference equality (the
ids the code compares are primitives, where the model is exact). -/
def jsEq : JValue → JValue → Bool
  | .null, .null => true
  | .bool a, .bool b => a == b
  | .num a, .num b => a == b
  | .str a, .str b => a == b
  | .arr xs, .arr ys => jsEqList xs ys
  | .obj xs, .obj ys => jsEqFields xs ys
  | _, _ => false

/-- Element-wise `jsEq` on arrays. -/
def jsEqList : List JValue → List JValue → Bool
  | [], [] => true
  | x :: xs, y :: ys => jsEq x y && jsEqList xs ys
  | _, _ => false

/-- Field-wise `jsEq` on object association lists. -/
def jsEqFields : List (String × JValue) → List (String × JValue) → Bool
  | [], [] => true
  | (k, v) :: xs, (l, w) :: ys => k == l && jsEq v w && jsEqFields xs ys
  | _, _ => false

end

/-- The `x === null` / `!= null` test used by `deepSearch`'s wrapper loop. -/
def isNull : JValue → Bool
  | .null => true
  | _ => false

/-- JavaScript truthiness of a value (`!obj`, `if (x)`, `a || b` tests).
`null` and `undefined` are falsy; so are `false`, `0` and `""`. -/
def truthy : JValue → Bool
  | .null => false
  | .bool b => b
  | .num n => n != 0
  | .str s => s != ""
  | .arr _ => true
  | .obj _ => true

/-- Property access `v?.k`: `none` models `undefined` (absent property, or
access through a non-object, which optional chaining turns into `undefined`
for every value this code dereferences). -/
def getField : JValue → String → Option JValue
  | .obj fields, k => fields.lookup k
  | _, _ => none

/-- Optional chain `v?.k1?.k2`. -/
def getPath2 (v : JValue) (k1 k2 : String) : Option JValue :=
  match getField v k1 with
  | some w => getField w k2
  | none => none

/-- Nullish coalescing `e ?? d` where `e : Option JValue` (`none` =
`undefined`). -/
def jsNullish : Option JValue → JValue → JValue
  | some .null, d => d
  | some v, _ => v
  | none, d => d

/-- Truthiness of a possibly-undefined expression (`if (v?.k)`). -/
def truthyOpt : Option JValue → Bool
  | some v => truthy v
  | none => false

/-- `Array.isArray(e)` on a possibly-undefined expression. -/
def isArrOpt : Option JValue → Bool
  | some (.arr _) => true
  | _ => false

/-- `isMatch` from `extractAgentData`: the candidate is a non-array object
containing the marker key (`validatorKey in obj`). -/
def isMatchB (key : String) : JValue → Bool
  | .obj fields => (fields.lookup key).isSome
  | _ => false

/-- The fixed wrapper-key probe order of `deepSearch` (`wrapperKeys`). -/
def wrapperKeys : List String :=
  ["result", "response", "data", "output", "content", "message", "text", "raw_response"]

/-- The `for (const key of wrapperKeys)` loop body of `deepSearch`: probe the
keys in order; a present, non-null value is searched with `rec` (the
depth-increased search), and the first non-null result is returned. -/
def probeList (rec : JValue → Option JValue) (fields : List (String × JValue)) :
    List String → Option JValue
  | [] => none
  | k :: ks =>
    match fields.lookup k with
    | some w =>
      if isNull w then probeList rec fields ks
      else
        match rec w with
        | some r => some r
        | none => probeList rec fields ks
    | none => probeList rec fields ks

/-- `deepSearch` from `extractAgentData`, with the depth guard expressed as
fuel: fuel `f` corresponds to depth `7 - f`, so the JS call at depth 0 with
guard `depth > 6` is `deepSearch parse key 7`.  Strings are parsed and (when
the parse is truthy) searched one level deeper; a matching object is returned
before its wrappers are probed. -/
def deepSearch (parse : String → Option JValue) (key : String) :
    Nat → JValue → Option JValue
  | 0, _ => none
  | f + 1, v =>
    if truthy v then
      match v with
      | .str s =>
        match parse s with
        | some p =>
          if truthy p then
            if isMatchB key p then some p else deepSearch parse key f p
          else none
        | none => none
      | .obj fields =>
        if isMatchB key (.obj fields) then some (.obj fields)
        else probeList (fun w => deepSearch parse key f w) fields wrapperKeys
      | _ => none
    else none

/-- `extractAgentData` from the page: falsy input yields `null`; otherwise the
five fallback locations are tried with early returns (direct
`result?.response?.result`, deep search within it, deep search of
`result?.response`, deep search of a truthy `result.raw_response`, deep search
of the whole envelope). -/
def extractAgentData (parse : String → Option JValue) (key : String)
    (result : JValue) : Option JValue :=
  if truthy result then
    match
      (match getPath2 result "response" "result" with
       | some d => if isMatchB key d then some d else none
       | none => none) with
    | some d => some d
    | none =>
      match
        (match getPath2 result "response" "result" with
         | some d => deepSearch parse key 7 d
         | none => none) with
      | some r => some r
      | none =>
        match
          (match getField result "response" with
           | some d => deepSearch parse key 7 d
           | none => none) with
        | some r => some r
        | none =>
          match
            (if truthyOpt (getField result "raw_response") then
              match getField result "raw_response" with
              | some d => deepSearch parse key 7 d
              | none => none
            else none) with
          | some r => some r
          | none => deepSearch parse key 7 result
  else none

/-- A concrete stand-in for `JSON.parse` under which no string parses
(used to instantiate scenario theorems whose free text is not JSON). -/
def parseNone : String → Option JValue := fun _ => none

/-! ## String primitives used by the page (character-list implementations of
the JS built-ins the code calls) -/

/-- Whether `pat` is a prefix of the character list. -/
def isPrefixList : List Char → List Char → Bool
  | [], _ => true
  | _ :: _, [] => false
  | a :: as, b :: bs => a == b && isPrefixList as bs

/-- Whether `pat` occurs as a contiguous sublist. -/
def containsList (pat : List Char) : List Char → Bool
  | [] => pat.isEmpty
  | c :: rest => isPrefixList pat (c :: rest) || containsList pat rest

/-- `s.includes(pat)`. -/
def strContains (s pat : String) : Bool := containsList pat.data s.data

/-- `s.toLowerCase()` (character-wise lowering; exact on the ASCII text the
code compares). -/
def lowerStr (s : String) : String := String.mk (s.data.map Char.toLower)

/-- `s.slice(0, n)`: the first `n` characters (JS counts UTF-16 units, which
coincides with characters on the text involved here). -/
def takeChars (s : String) (n : Nat) : String := String.mk (s.data.take n)

/-! ## Response Sanitizer (the `sanitized` construction inside `runScan`) -/

/-- The sanitized shape of `hn_results` / `arxiv_results`.  The item list is
kept element-wise as received (the code only coerces a non-array to `[]`);
the counters pass through `?? 0` without a type check, so they stay raw
values. -/
structure SubResults where
  items : List JValue
  total_fetched : JValue
  total_filtered : JValue

/-- A sanitized thread draft.  `requires_review` is coerced by `=== true` to
a real boolean and `relevance_score` by a `typeof === 'number'` check to a
number; every other field passes through `??` with a string default, so a
present non-null value of any type is kept as-is. -/
structure ThreadDraftS where
  id : JValue
  title : JValue
  classification : JValue
  thread_content : JValue
  hashtags : JValue
  hook : JValue
  requires_review : Bool
  review_reason : JValue
  source_url : JValue
  relevance_score : Int

/-- The fully sanitized manager response stored as the Scan Result. -/
structure ManagerResponseS where
  pipeline_status : JValue
  hn_results : SubResults
  arxiv_results : SubResults
  thread_drafts : List ThreadDraftS
  total_drafts : JValue
  auto_approved : JValue
  flagged_for_review : JValue
  scan_timestamp : JValue

/-- Element-wise draft sanitization (`responseData.thread_drafts.map((d, idx) => ...)`). -/
def sanitizeDraft (idx : Nat) (d : JValue) : ThreadDraftS :=
  { id := jsNullish (getField d "id") (.str ("draft-" ++ toString (idx + 1)))
  , title := jsNullish (getField d "title") (.str "Untitled")
  , classification := jsNullish (getField d "classification") (.str "TECH DEEP DIVE")
  , thread_content := jsNullish (getField d "thread_content") (.str "")
  , hashtags := jsNullish (getField d "hashtags") (.str "")
  , hook := jsNullish (getField d "hook") (.str "")
  , requires_review :=
      match getField d "requires_review" with
      | some (.bool true) => true
      | _ => false
  , review_reason := jsNullish (getField d "review_reason") (.str "")
  , source_url := jsNullish (getField d "source_url") (.str "")
  , relevance_score :=
      match getField d "relevance_score" with
      | some (.num n) => n
      | _ => 50 }

/-- Sanitization of one sub-result block (`stories` resp. `papers` is coerced
to `[]` unless array-valued; counters default to 0 on null/undefined). -/
def sanitizeSub (sub : Option JValue) (itemsKey : String) : SubResults :=
  { items :=
      match sub.bind (fun s => getField s itemsKey) with
      | some (.arr xs) => xs
      | _ => []
  , total_fetched := jsNullish (sub.bind (fun s => getField s "total_fetched")) (.num 0)
  , total_filtered := jsNullish (sub.bind (fun s => getField s "total_filtered")) (.num 0) }

/-- The whole `sanitized : ManagerResponse` object literal from `runScan`.
`now` stands for `new Date().toISOString()`. -/
def sanitizeManager (rd : JValue) (now : String) : ManagerResponseS :=
  { pipeline_status := jsNullish (getField rd "pipeline_status") (.str "completed")
  , hn_results := sanitizeSub (getField rd "hn_results") "stories"
  , arxiv_results := sanitizeSub (getField rd "arxiv_results") "papers"
  , thread_drafts :=
      match getField rd "thread_drafts" with
      | some (.arr ds) => ds.mapIdx sanitizeDraft
      | _ => []
  , total_drafts :=
      jsNullish (getField rd "total_drafts")
        (match getField rd "thread_drafts" with
         | some (.arr ds) => .num ds.length
         | _ => .num 0)
  , auto_approved := jsNullish (getField rd "auto_approved") (.num 0)
  , flagged_for_review := jsNullish (getField rd "flagged_for_review") (.num 0)
  , scan_timestamp := jsNullish (getField rd "scan_timestamp") (.str now) }

/-! ## Scan Controller (`runScan`, transport-success branch) -/

/-- JavaScript `Set<...>` insertion order and SameValueZero membership,
modelled as a duplicate-free list. -/
def insertSet (xs : List JValue) (x : JValue) : List JValue :=
  if xs.any (fun y => jsEq y x) then xs else xs ++ [x]

/-- The auto-approval loop: `sanitized.thread_drafts.forEach(d => if
(!d.requires_review && d.relevance_score >= settings.autoApproveThreshold)
autoApproved.add(d.id))`. -/
def computeAutoApproved (drafts : List ThreadDraftS) (thr : Int) : List JValue :=
  drafts.foldl
    (fun acc d =>
      if !d.requires_review && decide (thr ≤ d.relevance_score) then insertSet acc d.id
      else acc)
    []

/-- The plausibility test guarding the completed transition:
`Array.isArray(responseData.thread_drafts) || responseData.hn_results ||
responseData.arxiv_results`. -/
def plausibleB (rd : JValue) : Bool :=
  (match getField rd "thread_drafts" with
   | some (.arr _) => true
   | _ => false)
  || truthyOpt (getField rd "hn_results")
  || truthyOpt (getField rd "arxiv_results")

/-- The free-text fallback mined for the failed-scan error message: the first
of `result?.response?.message`, `result?.response?.result`,
`result?.response?.result?.text` that is a string (a `typeof` check, not
truthiness), else `''`. -/
def scanRawText (result : JValue) : String :=
  match getPath2 result "response" "message" with
  | some (.str s) => s
  | _ =>
    match getPath2 result "response" "result" with
    | some (.str s) => s
    | _ =>
      match (getPath2 result "response" "result").bind (fun r => getField r "text") with
      | some (.str s) => s
      | _ => ""

/-- The ambiguous-response error detail written to `scanError`: a fixed
prefix plus the free text capped at 300 characters (`rawText.slice(0, 300)`). -/
def scanFailMsg (result : JValue) : String :=
  "Agent returned data but no structured pipeline results were found. Raw: "
    ++ takeChars (scanRawText result) 300

/-- Terminal outcome of one scan whose agent call succeeded at the transport
level: either the completed transition (with the stored Scan Result and the
replacement Approval Set) or the failed transition with its error detail. -/
inductive ScanOutcome where
  | completed (data : ManagerResponseS) (approved : List JValue)
  | failed (error : String)

/-- The `result.success` branch of `runScan`: extract with marker
`pipeline_status`; on a plausible candidate, sanitize, auto-approve and
complete; otherwise fail with the bounded free-text excerpt. -/
def runScanSuccess (parse : String → Option JValue) (result : JValue)
    (thr : Int) (now : String) : ScanOutcome :=
  match extractAgentData parse "pipeline_status" result with
  | some rd =>
    if plausibleB rd then
      .completed (sanitizeManager rd now)
        (computeAutoApproved (sanitizeManager rd now).thread_drafts thr)
    else .failed (scanFailMsg result)
  | none => .failed (scanFailMsg result)

/-- The scan controller's state (the fields of the page state a scan outcome
touches). -/
inductive ScanStatus where
  | idle
  | scanning
  | completed
  | failed

/-- The scan-relevant slice of the page state. -/
structure ScanState where
  status : ScanStatus
  step : Nat
  scanData : Option ManagerResponseS
  approvedDraftIds : List JValue
  scanError : Option String

/-- Applying a scan outcome to the state: completion stores the Scan Result,
wholesale replaces the approved-id set and sets step 5; failure records the
error and leaves the previous data and approvals in place. -/
def applyScanOutcome (s : ScanState) : ScanOutcome → ScanState
  | .completed d app =>
    { s with status := .completed, step := 5, scanData := some d, approvedDraftIds := app }
  | .failed e => { s with status := .failed, scanError := some e }

/-! ## Publish Controller (`publishThread`, `publishAllApproved`) -/

mutual

/-- JavaScript `String(v)` on JSON-compatible values: primitives print their
value, arrays join their stringified elements with commas (null elements
print empty, per `Array.prototype.toString`) and plain objects print
`[object Object]`. -/
def jsToString : JValue → String
  | .null => "null"
  | .bool b => if b then "true" else "false"
  | .num n => toString n
  | .str s => s
  | .arr xs => jsArrToString xs
  | .obj _ => "[object Object]"

/-- Comma-joined stringification of an array's elements. -/
def jsArrToString : List JValue → String
  | [] => ""
  | [x] => jsElemToString x
  | x :: xs => jsElemToString x ++ "," ++ jsArrToString xs

/-- One array element inside `Array.prototype.toString`: null prints empty. -/
def jsElemToString : JValue → String
  | .null => ""
  | v => jsToString v

end

/-- The falsy-skipping `a || b || c || ''` chain over possibly-undefined
expressions. -/
def jsOr (xs : List (Option JValue)) : JValue :=
  match xs with
  | [] => .str ""
  | o :: rest =>
    match o with
    | some v => if truthy v then v else jsOr rest
    | none => jsOr rest

/-- `msgText` of the unstructured publish branch:
`result?.response?.message || result?.response?.result?.text ||
result?.response?.result?.message || ''`. -/
def msgTextOf (result : JValue) : JValue :=
  jsOr
    [ getPath2 result "response" "message"
    , (getPath2 result "response" "result").bind (fun r => getField r "text")
    , (getPath2 result "response" "result").bind (fun r => getField r "message") ]

/-- `looksSuccessful`: `msgText` is a string whose lowercasing contains one
of the fixed confirmation keywords. -/
def looksSuccessfulB : JValue → Bool
  | .str s =>
    strContains (lowerStr s) "posted" || strContains (lowerStr s) "tweet"
      || strContains (lowerStr s) "success"
  | _ => false

/-- `(twitterData.post_status ?? '').toLowerCase()`: `some` is the lowered
string; `none` models the `TypeError` thrown when the field holds a non-null
non-string (`.toLowerCase` is not a function there). -/
def postStatusLower (td : JValue) : Option String :=
  match jsNullish (getField td "post_status") (.str "") with
  | .str s => some (lowerStr s)
  | _ => none

/-- Publish-record status values. -/
inductive PubStatus where
  | pending
  | posting
  | success
  | failed

/-- Decidable equality on publish statuses (for history filters). -/
def pubStatusEq : PubStatus → PubStatus → Bool
  | .pending, .pending => true
  | .posting, .posting => true
  | .success, .success => true
  | .failed, .failed => true
  | _, _ => false

/-- An error detail stored on a record: either a value from the code's own
string building, or the message of a runtime exception (whose text the
platform chooses). -/
inductive EMsg where
  | v (j : JValue)
  | exnText

/-- One entry of `publishHistory`. -/
structure PublishRecord where
  draftId : JValue
  title : JValue
  status : PubStatus
  tweetUrl : JValue
  timestamp : JValue
  errorMessage : EMsg

/-- The terminal field values `publishThread` writes for one draft when the
agent call succeeded at the transport level. -/
structure PubOutcome where
  status : PubStatus
  tweetUrl : JValue
  timestamp : JValue
  errorMessage : EMsg

/-- Result of the transport-success decision: either a fully decided outcome,
or the `TypeError` raised while reading a non-string `post_status` (which the
surrounding `catch` then turns into a failed record). -/
inductive PubDecision where
  | outcome (o : PubOutcome)
  | typeError

/-- The decision logic of `publishThread` for a transport-successful call:
a structured match (marker `post_status`) is judged by a case-insensitive
comparison with the literal `success`; otherwise the keyword heuristic over
the free-text reply decides, with the raw text truncated to 200 characters
as the error detail on failure. -/
def decidePublishSuccess (parse : String → Option JValue) (result : JValue)
    (now : String) : PubDecision :=
  match extractAgentData parse "post_status" result with
  | some td =>
    match postStatusLower td with
    | some s =>
      .outcome
        { status := if s = "success" then .success else .failed
        , tweetUrl := jsNullish (getField td "tweet_url") (.str "")
        , timestamp := jsNullish (getField td "timestamp") (.str now)
        , errorMessage := .v (jsNullish (getField td "error_message") (.str "")) }
    | none => .typeError
  | none =>
    let m := msgTextOf result
    if looksSuccessfulB m then
      .outcome
        { status := .success, tweetUrl := .str "", timestamp := .str now
        , errorMessage := .v (.str "") }
    else
      .outcome
        { status := .failed, tweetUrl := .str "", timestamp := .str now
        , errorMessage :=
            .v (.str ("Unstructured response: " ++ takeChars (jsToString m) 200)) }

/-- Starting a publish: drop any previous record for the id and append a
fresh `posting` record (`[...prev.filter(p => p.draftId !== draftId),
{draftId, title, status: 'posting', ...}]`). -/
def applyStart (h : List PublishRecord) (draftId title : JValue) :
    List PublishRecord :=
  h.filter (fun p => !jsEq p.draftId draftId)
    ++ [{ draftId := draftId, title := title, status := .posting
        , tweetUrl := .str "", timestamp := .str "", errorMessage := .v (.str "") }]

/-- Recording a fully decided terminal result: map over the history,
overwriting status, url, timestamp and error of the record with this id. -/
def applyOutcome (h : List PublishRecord) (draftId : JValue) (o : PubOutcome) :
    List PublishRecord :=
  h.map (fun p =>
    if jsEq p.draftId draftId then
      { p with status := o.status, tweetUrl := o.tweetUrl
             , timestamp := o.timestamp, errorMessage := o.errorMessage }
    else p)

/-- Recording a failure that only rewrites status and error message (the
transport-failure branch and the `catch` block: `{...p, status: 'failed',
errorMessage}`). -/
def applyFail (h : List PublishRecord) (draftId : JValue) (err : EMsg) :
    List PublishRecord :=
  h.map (fun p =>
    if jsEq p.draftId draftId then { p with status := .failed, errorMessage := err }
    else p)

/-- A `?? ... ?? d` chain over possibly-undefined expressions. -/
def jsNullishChain (xs : List (Option JValue)) (d : JValue) : JValue :=
  match xs with
  | [] => d
  | o :: rest =>
    match o with
    | some .null => jsNullishChain rest d
    | some v => v
    | none => jsNullishChain rest d

/-- The transport view of one `callAIAgent` invocation: a resolved envelope,
or a thrown fault carrying the message the catch computes from it. -/
inductive Transport where
  | ok (result : JValue)
  | exn (msg : String)

/-- The publish-relevant slice of the page state. -/
structure PubState where
  history : List PublishRecord
  publishingIds : List JValue
  activeAgent : Option String

/-- The Twitter agent id routed through `callAIAgent`. -/
def TWITTER_AGENT_ID : String := "69995e05746ef9435cac7e1d"

/-- `Set.delete` on the publishing-id set. -/
def eraseSet (xs : List JValue) (x : JValue) : List JValue :=
  xs.filter (fun y => !jsEq y x)

/-- `draft?.id ?? ''` resp. `draft?.title ?? 'Untitled'` on a sanitized
draft (whose fields are always present, so only the null case defaults). -/
def idOrEmpty (d : ThreadDraftS) : JValue :=
  match d.id with
  | .null => .str ""
  | v => v

/-- `draft?.title ?? 'Untitled'` for the start record. -/
def titleOrUntitled (d : ThreadDraftS) : JValue :=
  match d.title with
  | .null => .str "Untitled"
  | v => v

/-- One full run of `publishThread`: the guard returns immediately on a falsy
id; otherwise the record is started, the agent is invoked (the returned flag
says whether it was), the terminal result is recorded, and the in-flight id
and active-agent indicator are cleared. -/
def publishThreadRun (parse : String → Option JValue) (st : PubState)
    (d : ThreadDraftS) (tr : Transport) (now : String) : PubState × Bool :=
  let draftId := idOrEmpty d
  if !truthy draftId then (st, false)
  else
    let h1 := applyStart st.history draftId (titleOrUntitled d)
    let ids1 := insertSet st.publishingIds draftId
    let h2 :=
      match tr with
      | .exn msg => applyFail h1 draftId (.v (.str msg))
      | .ok result =>
        if truthyOpt (getField result "success") then
          match decidePublishSuccess parse result now with
          | .outcome o => applyOutcome h1 draftId o
          | .typeError => applyFail h1 draftId .exnText
        else
          applyFail h1 draftId
            (.v (jsNullishChain
              [getField result "error", getPath2 result "response" "message"]
              (.str "Unknown error")))
    ({ history := h2, publishingIds := eraseSet ids1 draftId, activeAgent := none }, true)

/-- `approvedDrafts`: the drafts of the current scan whose id is in the
approval set, in draft order. -/
def approvedDraftsOf (drafts : List ThreadDraftS) (approvedIds : List JValue) :
    List ThreadDraftS :=
  drafts.filter (fun d => approvedIds.any (fun x => jsEq x (idOrEmpty d)))

/-- Whether the (snapshot) history already holds a `success` record for this
draft's id — the skip test of `publishAllApproved`. -/
def hasSuccessRecord (history : List PublishRecord) (d : ThreadDraftS) : Bool :=
  (history.find? (fun p =>
    jsEq p.draftId (idOrEmpty d) && pubStatusEq p.status .success)).isSome

/-- The `for (const draft of approvedDrafts)` loop of `publishAllApproved`,
denoted by the sequence of drafts for which the single-item publish (and with
it the Agent Caller) is invoked, in loop order.  The skip test reads the
closure's snapshot of `publishHistory`, which the loop body does not reassign. -/
def bulkPublishInvocations (approved : List ThreadDraftS)
    (history : List PublishRecord) : List ThreadDraftS :=
  match approved with
  | [] => []
  | d :: rest =>
    if hasSuccessRecord history d then bulkPublishInvocations rest history
    else d :: bulkPublishInvocations rest history

/-- The draft ids of a history, in record order. -/
def historyIds (h : List PublishRecord) : List JValue :=
  h.map (fun p => p.draftId)

/-- No value occurs `jsEq`-equal twice in the list. -/
def nodupIdsB : List JValue → Bool
  | [] => true
  | x :: xs => !(xs.any (fun y => jsEq y x)) && nodupIdsB xs

/-- At most one history record per draft id. -/
def idsNodupB (h : List PublishRecord) : Bool := nodupIdsB (historyIds h)

/-! ## Basic lemmas -/

mutual

/-- `jsEq` is sound for propositional equality. -/
theorem eq_of_jsEq : (a b : JValue) → jsEq a b = true → a = b
  | .null, .null, _ => rfl
  | .null, .bool _, h => absurd h (by simp [jsEq])
  | .null, .num _, h => absurd h (by simp [jsEq])
  | .null, .str _, h => absurd h (by simp [jsEq])
  | .null, .arr _, h => absurd h (by simp [jsEq])
  | .null, .obj _, h => absurd h (by simp [jsEq])
  | .bool _, .null, h => absurd h (by simp [jsEq])
  | .bool x, .bool y, h => by simp [jsEq] at h; simp [h]
  | .bool _, .num _, h => absurd h (by simp [jsEq])
  | .bool _, .str _, h => absurd h (by simp [jsEq])
  | .bool _, .arr _, h => absurd h (by simp [jsEq])
  | .bool _, .obj _, h => absurd h (by simp [jsEq])
  | .num _, .null, h => absurd h (by simp [jsEq])
  | .num _, .bool _, h => absurd h (by simp [jsEq])
  | .num x, .num y, h => by simp [jsEq] at h; simp [h]
  | .num _, .str _, h => absurd h (by simp [jsEq])
  | .num _, .arr _, h => absurd h (by simp [jsEq])
  | .num _, .obj _, h => absurd h (by simp [jsEq])
  | .str _, .null, h => absurd h (by simp [jsEq])
  | .str _, .bool _, h => absurd h (by simp [jsEq])
  | .str _, .num _, h => absurd h (by simp [jsEq])
  | .str x, .str y, h => by simp [jsEq] at h; simp [h]
  | .str _, .arr _, h => absurd h (by simp [jsEq])
  | .str _, .obj _, h => absurd h (by simp [jsEq])
  | .arr _, .null, h => absurd h (by simp [jsEq])
  | .arr _, .bool _, h => absurd h (by simp [jsEq])
  | .arr _, .num _, h => absurd h (by simp [jsEq])
  | .arr _, .str _, h => absurd h (by simp [jsEq])
  | .arr xs, .arr ys, h => by
    simp only [jsEq] at h
    rw [eqList_of_jsEqList xs ys h]
  | .arr _, .obj _, h => absurd h (by simp [jsEq])
  | .obj _, .null, h => absurd h (by simp [jsEq])
  | .obj _, .bool _, h => absurd h (by simp [jsEq])
  | .obj _, .num _, h => absurd h (by simp [jsEq])
  | .obj _, .str _, h => absurd h (by simp [jsEq])
  | .obj _, .arr _, h => absurd h (by simp [jsEq])
  | .obj xs, .obj ys, h => by
    simp only [jsEq] at h
    rw [eqFields_of_jsEqFields xs ys h]

/-- `jsEqList` is sound for propositional equality. -/
theorem eqList_of_jsEqList : (xs ys : List JValue) → jsEqList xs ys = true → xs = ys
  | [], [], _ => rfl
  | [], _ :: _, h => absurd h (by simp [jsEqList])
  | _ :: _, [], h => absurd h (by simp [jsEqList])
  | x :: xs, y :: ys, h => by
    simp only [jsEqList, Bool.and_eq_true] at h
    rw [eq_of_jsEq x y h.1, eqList_of_jsEqList xs ys h.2]

/-- `jsEqFields` is sound for propositional equality. -/
theorem eqFields_of_jsEqFields :
    (xs ys : List (String × JValue)) → jsEqFields xs ys = true → xs = ys
  | [], [], _ => rfl
  | [], _ :: _, h => absurd h (by simp [jsEqFields])
  | _ :: _, [], h => absurd h (by simp [jsEqFields])
  | (k, v) :: xs, (l, w) :: ys, h => by
    simp only [jsEqFields, Bool.and_eq_true] at h
    obtain ⟨⟨h1, h2⟩, h3⟩ := h
    rw [show k = l by simpa using h1, eq_of_jsEq v w h2,
      eqFields_of_jsEqFields xs ys h3]

end

mutual

/-- `jsEq` is reflexive. -/
theorem jsEq_refl : (a : JValue) → jsEq a a = true
  | .null => rfl
  | .bool b => by simp [jsEq]
  | .num n => by simp [jsEq]
  | .str s => by simp [jsEq]
  | .arr xs => by simpa [jsEq] using jsEqList_refl xs
  | .obj xs => by simpa [jsEq] using jsEqFields_refl xs

/-- `jsEqList` is reflexive. -/
theorem jsEqList_refl : (xs : List JValue) → jsEqList xs xs = true
  | [] => rfl
  | x :: xs => by simp [jsEqList, jsEq_refl x, jsEqList_refl xs]

/-- `jsEqFields` is reflexive. -/
theorem jsEqFields_refl : (xs : List (String × JValue)) → jsEqFields xs xs = true
  | [] => rfl
  | (k, v) :: xs => by simp [jsEqFields, jsEq_refl v, jsEqFields_refl xs]

end

/-- `jsEq` coincides with propositional equality (the structural model is an
equivalence, as SameValueZero is on primitives). -/
theorem jsEq_iff (a b : JValue) : jsEq a b = true ↔ a = b :=
  ⟨eq_of_jsEq a b, fun h => h ▸ jsEq_refl a⟩

/-- `jsEq` is symmetric. -/
theorem jsEq_comm (a b : JValue) : jsEq a b = jsEq b a := by
  cases hab : jsEq a b <;> cases hba : jsEq b a <;> try rfl
  · exact absurd ((jsEq_iff a b).mpr ((jsEq_iff b a).mp hba).symm) (by simp [hab])
  · exact absurd ((jsEq_iff b a).mpr ((jsEq_iff a b).mp hab).symm) (by simp [hba])

/-- A value judged a match is an object carrying the marker key. -/
theorem isMatchB_shape {key : String} {v : JValue} (h : isMatchB key v = true) :
    ∃ fields, v = .obj fields ∧ (fields.lookup key).isSome = true := by
  cases v <;> simp_all [isMatchB]

/-- Everything `probeList` returns comes from `rec` on some probed value. -/
theorem probeList_some {rec : JValue → Option JValue}
    {fields : List (String × JValue)} {r : JValue} :
    ∀ {ks : List String}, probeList rec fields ks = some r →
      ∃ w, rec w = some r
  | [], h => by simp [probeList] at h
  | k :: ks, h => by
    simp only [probeList] at h
    split at h
    next w _ =>
      split at h
      · exact probeList_some h
      · split at h
        next r' hr => exact ⟨w, by rw [hr]; exact h⟩
        next => exact probeList_some h
    next => exact probeList_some h

/-- Everything `deepSearch` returns satisfies the marker predicate. -/
theorem deepSearch_isMatch {parse : String → Option JValue} {key : String} :
    ∀ {f : Nat} {v r : JValue}, deepSearch parse key f v = some r →
      isMatchB key r = true := by
  intro f
  induction f with
  | zero => intro v r h; simp [deepSearch] at h
  | succ f ih =>
    intro v r h
    simp only [deepSearch] at h
    split at h
    · split at h
      next s =>
        split at h
        next p _ =>
          split at h
          · split at h
            · cases h; assumption
            · exact ih h
          · exact absurd h (by simp)
        next => exact absurd h (by simp)
      next fields =>
        split at h
        · cases h; assumption
        · obtain ⟨w, hw⟩ := probeList_some h
          exact ih hw
      next => exact absurd h (by simp)
    · exact absurd h (by simp)

/-- A matching value is returned by `deepSearch` as soon as any fuel is left. -/
theorem deepSearch_of_isMatch {parse : String → Option JValue} {key : String}
    {f : Nat} {v : JValue} (h : isMatchB key v = true) :
    deepSearch parse key (f + 1) v = some v := by
  obtain ⟨fields, rfl, _⟩ := isMatchB_shape h
  simp [deepSearch, truthy, h]

/-- Everything `extractAgentData` returns satisfies the marker predicate. -/
theorem extract_isMatch {parse : String → Option JValue} {key : String}
    {res m : JValue} (h : extractAgentData parse key res = some m) :
    isMatchB key m = true := by
  simp only [extractAgentData] at h
  split at h
  · split at h
    next heq =>
      cases h
      split at heq
      · split at heq
        · cases heq; assumption
        · exact absurd heq (by simp)
      · exact absurd heq (by simp)
    next heq =>
      split at h
      next heq2 =>
        cases h
        split at heq2
        · exact deepSearch_isMatch heq2
        · exact absurd heq2 (by simp)
      next heq2 =>
        split at h
        next heq3 =>
          cases h
          split at heq3
          · exact deepSearch_isMatch heq3
          · exact absurd heq3 (by simp)
        next heq3 =>
          split at h
          next heq4 =>
            cases h
            split at heq4
            · split at heq4
              · exact deepSearch_isMatch heq4
              · exact absurd heq4 (by simp)
            · exact absurd heq4 (by simp)
          next heq4 => exact deepSearch_isMatch h
  · exact absurd h (by simp)

/-- `deepSearch` never matches an array. -/
theorem deepSearch_arr (parse : String → Option JValue) (key : String)
    (f : Nat) (xs : List JValue) : deepSearch parse key f (.arr xs) = none := by
  cases f <;> simp [deepSearch, truthy]

/-- `deepSearch` never matches a number. -/
theorem deepSearch_num (parse : String → Option JValue) (key : String)
    (f : Nat) (n : Int) : deepSearch parse key f (.num n) = none := by
  cases f <;> simp [deepSearch, truthy]

/-- `deepSearch` never matches a boolean. -/
theorem deepSearch_bool (parse : String → Option JValue) (key : String)
    (f : Nat) (b : Bool) : deepSearch parse key f (.bool b) = none := by
  cases f <;> cases b <;> simp [deepSearch, truthy]

/-- `deepSearch` never matches `null`. -/
theorem deepSearch_null (parse : String → Option JValue) (key : String)
    (f : Nat) : deepSearch parse key f .null = none := by
  cases f <;> simp [deepSearch, truthy]

/-- If the whole extraction fails on a truthy envelope, in particular the
final full deep search failed. -/
theorem extract_none_deepSearch {parse : String → Option JValue} {key : String}
    {v : JValue} (h : extractAgentData parse key v = none)
    (ht : truthy v = true) : deepSearch parse key 7 v = none := by
  simp only [extractAgentData, ht, if_true] at h
  split at h
  · exact absurd h (by simp)
  · split at h
    · exact absurd h (by simp)
    · split at h
      · exact absurd h (by simp)
      · split at h
        · exact absurd h (by simp)
        · exact h

/-- Re-extraction of a matching object always yields a matching object. -/
theorem extract_some_of_isMatch {parse : String → Option JValue} {key : String}
    {m : JValue} (hm : isMatchB key m = true) :
    ∃ m', extractAgentData parse key m = some m' ∧ isMatchB key m' = true := by
  cases he : extractAgentData parse key m with
  | some m' => exact ⟨m', rfl, extract_isMatch he⟩
  | none =>
    exfalso
    obtain ⟨fields, rfl, _⟩ := isMatchB_shape hm
    have hd := extract_none_deepSearch he (by simp [truthy])
    rw [deepSearch_of_isMatch (f := 6) hm] at hd
    exact absurd hd (by simp)

/-- A matching object with no `response` and no `raw_response` field
re-extracts to itself (path 5 is the first that fires). -/
theorem extract_of_isMatch_no_wrappers {parse : String → Option JValue}
    {key : String} {m : JValue} (hm : isMatchB key m = true)
    (h1 : getField m "response" = none) (h2 : getField m "raw_response" = none) :
    extractAgentData parse key m = some m := by
  obtain ⟨fields, rfl, _⟩ := isMatchB_shape hm
  simp [extractAgentData, truthy, getPath2, h1, h2, truthyOpt,
    deepSearch_of_isMatch (f := 6) hm]

/-- The plausibility guard, spelled out: an array-valued `thread_drafts`, or
a truthy `hn_results` or `arxiv_results`. -/
theorem plausibleB_iff (rd : JValue) : plausibleB rd = true ↔
    ((∃ ds, getField rd "thread_drafts" = some (.arr ds)) ∨
      truthyOpt (getField rd "hn_results") = true ∨
      truthyOpt (getField rd "arxiv_results") = true) := by
  simp only [plausibleB, Bool.or_eq_true]
  constructor
  · rintro ((h | h) | h)
    · left
      split at h
      · next ds _ => exact ⟨ds, by assumption⟩
      · exact absurd h (by simp)
    · right; left; exact h
    · right; right; exact h
  · rintro (⟨ds, h⟩ | h | h)
    · left; left; rw [h]
    · left; right; exact h
    · right; exact h

/-- `probeList` returns the first non-null probe outcome, in key order. -/
theorem probeList_eq_head (rec : JValue → Option JValue)
    (fields : List (String × JValue)) :
    ∀ ks : List String, probeList rec fields ks =
      (ks.filterMap (fun k =>
        match fields.lookup k with
        | some w => if isNull w then none else rec w
        | none => none)).head?
  | [] => by simp [probeList]
  | k :: ks => by
    simp only [probeList, List.filterMap_cons]
    cases hl : fields.lookup k with
    | none => simpa [hl] using probeList_eq_head rec fields ks
    | some w =>
      by_cases hn : isNull w
      · simpa [hl, hn] using probeList_eq_head rec fields ks
      · cases hr : rec w with
        | none => simpa [hl, hn, hr] using probeList_eq_head rec fields ks
        | some r => simp [hl, hn, hr]

/-- Membership in the JS-set insertion. -/
theorem mem_insertSet {acc : List JValue} {y x : JValue} :
    x ∈ insertSet acc y ↔ x ∈ acc ∨ x = y := by
  unfold insertSet
  split
  next h =>
    simp only [List.any_eq_true] at h
    obtain ⟨z, hz, hzy⟩ := h
    have hzy' := eq_of_jsEq _ _ hzy
    constructor
    · exact Or.inl
    · rintro (hx | rfl)
      · exact hx
      · exact hzy' ▸ hz
  next => simp

/-- Characterization of the auto-approval fold over any accumulator. -/
theorem mem_autoApprove_foldl (thr : Int) :
    ∀ (drafts : List ThreadDraftS) (acc : List JValue) (x : JValue),
      (x ∈ drafts.foldl
        (fun acc d =>
          if !d.requires_review && decide (thr ≤ d.relevance_score) then insertSet acc d.id
          else acc) acc ↔
        x ∈ acc ∨ ∃ d ∈ drafts,
          d.requires_review = false ∧ thr ≤ d.relevance_score ∧ d.id = x)
  | [], acc, x => by simp
  | d :: ds, acc, x => by
    simp only [List.foldl_cons]
    rw [mem_autoApprove_foldl thr ds _ x]
    by_cases hc : (!d.requires_review && decide (thr ≤ d.relevance_score)) = true
    · simp only [Bool.and_eq_true, Bool.not_eq_true', decide_eq_true_eq] at hc
      rw [if_pos (by simp [hc.1, hc.2])]
      rw [mem_insertSet]
      constructor
      · rintro ((hx | rfl) | ⟨d', hd', hall⟩)
        · exact Or.inl hx
        · exact Or.inr ⟨d, List.mem_cons_self d ds, hc.1, hc.2, rfl⟩
        · exact Or.inr ⟨d', List.mem_cons_of_mem d hd', hall⟩
      · rintro (hx | ⟨d', hd', hr, hs, hid⟩)
        · exact Or.inl (Or.inl hx)
        · rcases List.mem_cons.mp hd' with rfl | hd'
          · exact Or.inl (Or.inr hid.symm)
          · exact Or.inr ⟨d', hd', hr, hs, hid⟩
    · rw [if_neg hc]
      constructor
      · rintro (hx | ⟨d', hd', hall⟩)
        · exact Or.inl hx
        · exact Or.inr ⟨d', List.mem_cons_of_mem d hd', hall⟩
      · rintro (hx | ⟨d', hd', hr, hs, hid⟩)
        · exact Or.inl hx
        · rcases List.mem_cons.mp hd' with rfl | hd'
          · exact absurd (by simp [hr, hs] : (!d'.requires_review
              && decide (thr ≤ d'.relevance_score)) = true) hc
          · exact Or.inr ⟨d', hd', hr, hs, hid⟩

/-- `any` is monotone under sublists. -/
theorem any_of_sublist {l' l : List JValue} {f : JValue → Bool}
    (hs : List.Sublist l' l) (h : l'.any f = true) : l.any f = true := by
  simp only [List.any_eq_true] at h ⊢
  obtain ⟨x, hx, hf⟩ := h
  exact ⟨x, hs.mem hx, hf⟩

/-- Duplicate-freedom is preserved by sublists. -/
theorem nodupIdsB_sublist {l' l : List JValue} (hs : List.Sublist l' l)
    (h : nodupIdsB l = true) : nodupIdsB l' = true := by
  induction hs with
  | slnil => rfl
  | cons a hs ih =>
    simp only [nodupIdsB, Bool.and_eq_true] at h
    exact ih h.2
  | cons₂ a hs ih =>
    simp only [nodupIdsB, Bool.and_eq_true] at h ⊢
    refine ⟨?_, ih h.2⟩
    cases hb : List.any _ (fun y => jsEq y a) with
    | false => rfl
    | true => rw [any_of_sublist hs hb] at h; simp at h

/-- Appending a fresh id preserves duplicate-freedom. -/
theorem nodupIdsB_append_single {xs : List JValue} {x : JValue}
    (h1 : nodupIdsB xs = true) (h2 : xs.any (fun y => jsEq y x) = false) :
    nodupIdsB (xs ++ [x]) = true := by
  induction xs with
  | nil => rfl
  | cons a xs ih =>
    simp only [nodupIdsB, Bool.and_eq_true] at h1
    simp only [List.any_cons, Bool.or_eq_false_iff] at h2
    simp only [List.cons_append, nodupIdsB, Bool.and_eq_true]
    have hxa : jsEq x a = false := by rw [jsEq_comm]; simpa using h2.1
    have hxs : xs.any (fun y => jsEq y a) = false := by simpa using h1.1
    refine ⟨?_, ih h1.2 h2.2⟩
    simp [List.any_append, hxs, hxa]

/-- Recording a terminal outcome never changes the sequence of draft ids. -/
theorem historyIds_applyOutcome (h : List PublishRecord) (id : JValue)
    (o : PubOutcome) : historyIds (applyOutcome h id o) = historyIds h := by
  induction h with
  | nil => rfl
  | cons p ps ih =>
    simp only [applyOutcome, historyIds, List.map_cons] at ih ⊢
    split <;> simp only [ih]

/-- Recording a failure never changes the sequence of draft ids. -/
theorem historyIds_applyFail (h : List PublishRecord) (id : JValue)
    (e : EMsg) : historyIds (applyFail h id e) = historyIds h := by
  induction h with
  | nil => rfl
  | cons p ps ih =>
    simp only [applyFail, historyIds, List.map_cons] at ih ⊢
    split <;> simp only [ih]

/-- After starting a publish, the history carries exactly one record for the
id: the fresh `posting` record. -/
theorem applyStart_filter (h : List PublishRecord) (id t : JValue) :
    (applyStart h id t).filter (fun p => jsEq p.draftId id) =
      [{ draftId := id, title := t, status := .posting, tweetUrl := .str ""
       , timestamp := .str "", errorMessage := .v (.str "") }] := by
  simp only [applyStart, List.filter_append]
  have hfil : (h.filter (fun p => !jsEq p.draftId id)).filter
      (fun p => jsEq p.draftId id) = [] := by
    rw [List.filter_filter]
    apply List.filter_eq_nil_iff.mpr
    intro p _
    cases hp : jsEq p.draftId id <;> simp [hp]
  rw [hfil, List.nil_append]
  simp [List.filter_cons, jsEq_refl]

/-- Starting a publish preserves uniqueness of draft ids. -/
theorem idsNodupB_applyStart (h : List PublishRecord) (id t : JValue)
    (hn : idsNodupB h = true) : idsNodupB (applyStart h id t) = true := by
  unfold idsNodupB at *
  simp only [applyStart, historyIds, List.map_append, List.map_cons, List.map_nil]
  apply nodupIdsB_append_single
  · exact nodupIdsB_sublist ((List.filter_sublist h).map _) hn
  · cases hb : (List.map (fun p => p.draftId)
        (h.filter (fun p => !jsEq p.draftId id))).any (fun y => jsEq y id) with
    | false => rfl
    | true =>
      exfalso
      simp only [List.any_eq_true, List.mem_map, List.mem_filter] at hb
      obtain ⟨y, ⟨p, ⟨_, hpni⟩, rfl⟩, hy⟩ := hb
      rw [hy] at hpni
      simp at hpni

/-- A full single-item publish run preserves uniqueness of draft ids. -/
theorem idsNodupB_publishThreadRun (parse : String → Option JValue)
    (st : PubState) (d : ThreadDraftS) (tr : Transport) (now : String)
    (hn : idsNodupB st.history = true) :
    idsNodupB ((publishThreadRun parse st d tr now).1).history = true := by
  unfold publishThreadRun
  by_cases hid : truthy (idOrEmpty d)
  · simp only [hid, Bool.not_true, Bool.false_eq_true, if_false]
    have h1 := idsNodupB_applyStart st.history (idOrEmpty d) (titleOrUntitled d) hn
    cases tr with
    | exn msg =>
      simpa [idsNodupB, historyIds_applyFail] using h1
    | ok result =>
      by_cases hs : truthyOpt (getField result "success")
      · simp only [hs, if_true]
        cases decidePublishSuccess parse result now with
        | outcome o => simpa [idsNodupB, historyIds_applyOutcome] using h1
        | typeError => simpa [idsNodupB, historyIds_applyFail] using h1
      · simp only [hs, Bool.false_eq_true, if_false]
        simpa [idsNodupB, historyIds_applyFail] using h1
  · simp only [Bool.not_eq_true] at hid
    simp [hid, hn]

/-- Records matching the updated id in an `applyFail` result are failed. -/
theorem mem_applyFail_matching {h : List PublishRecord} {id : JValue}
    {e : EMsg} {p : PublishRecord} (hp : p ∈ applyFail h id e)
    (hm : jsEq p.draftId id = true) : p.status = .failed := by
  simp only [applyFail, List.mem_map] at hp
  obtain ⟨q, hq, hpq⟩ := hp
  by_cases hj : jsEq q.draftId id
  · rw [if_pos hj] at hpq
    rw [← hpq]
  · rw [if_neg hj] at hpq
    subst hpq
    exact absurd hm hj

/-! ## Claim theorems -/

/-- C2: for every JSON-compatible input and marker key, `extractAgentData`
terminates (it is a total function, with recursion bounded by the depth-6
fuel) and never throws; it returns either `null` or a non-array object that
contains the marker key, never an object lacking the marker; and `deepSearch`
yields no match on arrays, numbers, booleans or `null`. -/
theorem extract_safety :
    (∀ (parse : String → Option JValue) (key : String) (res m : JValue),
      extractAgentData parse key res = some m →
        ∃ fields, m = .obj fields ∧ (fields.lookup key).isSome = true)
    ∧ (∀ (parse : String → Option JValue) (key : String) (f : Nat)
        (xs : List JValue), deepSearch parse key f (.arr xs) = none)
    ∧ (∀ (parse : String → Option JValue) (key : String) (f : Nat) (n : Int),
        deepSearch parse key f (.num n) = none)
    ∧ (∀ (parse : String → Option JValue) (key : String) (f : Nat) (b : Bool),
        deepSearch parse key f (.bool b) = none)
    ∧ (∀ (parse : String → Option JValue) (key : String) (f : Nat),
        deepSearch parse key f .null = none) :=
  ⟨fun _ _ _ _ h => isMatchB_shape (extract_isMatch h),
   deepSearch_arr, deepSearch_num, deepSearch_bool, deepSearch_null⟩

/-- Witness for C2 at a concrete envelope and marker. -/
theorem extract_safety_witness :
    ∃ fields, JValue.obj [("marker2", JValue.bool true)] = .obj fields ∧
      (fields.lookup "marker2").isSome = true :=
  extract_safety.1 parseNone "marker2"
    (.obj [("response", .obj [("result", .obj [("marker2", .bool true)])])])
    (.obj [("marker2", .bool true)]) rfl

/-- C8 counterexample: `extractAgentData` is not idempotent on its non-null
outputs.  The extracted object `M` here itself nests a second match at
`M.response.result`; re-extracting `M` follows call-site path 1 first and
returns the nested object, not `M`. -/
theorem extract_not_idempotent :
    extractAgentData parseNone "k"
        (.obj [("response", .obj [("result",
          .obj [("k", .num 1),
                ("response", .obj [("result", .obj [("k", .num 2)])])])])])
      = some (.obj [("k", .num 1),
          ("response", .obj [("result", .obj [("k", .num 2)])])])
    ∧ extractAgentData parseNone "k"
        (.obj [("k", .num 1),
          ("response", .obj [("result", .obj [("k", .num 2)])])])
      = some (.obj [("k", .num 2)])
    ∧ jsEq (.obj [("k", .num 2)])
        (.obj [("k", .num 1),
          ("response", .obj [("result", .obj [("k", .num 2)])])]) = false :=
  ⟨rfl, rfl, rfl⟩

/-- C8 (amended): re-extracting a non-null output always yields a non-null
object containing the marker, and yields the same object whenever the output
has no `response` field and no `raw_response` field; in general the
re-extraction may return a match nested inside the output instead. -/
theorem extract_reextract :
    ∀ (parse : String → Option JValue) (key : String) (res m : JValue),
      extractAgentData parse key res = some m →
        ((∃ m', extractAgentData parse key m = some m' ∧ isMatchB key m' = true)
          ∧ (getField m "response" = none → getField m "raw_response" = none →
              extractAgentData parse key m = some m)) :=
  fun _ _ _ _ h =>
    ⟨extract_some_of_isMatch (extract_isMatch h),
     fun h1 h2 => extract_of_isMatch_no_wrappers (extract_isMatch h) h1 h2⟩

/-- Witness for C8 (amended) at a concrete envelope. -/
theorem extract_reextract_witness :
    extractAgentData parseNone "m8" (.obj [("m8", .bool true)])
      = some (.obj [("m8", .bool true)]) :=
  (extract_reextract parseNone "m8"
    (.obj [("response", .obj [("result", .obj [("m8", .bool true)])])])
    (.obj [("m8", .bool true)]) rfl).2 rfl rfl

/-- C9: the publish history keeps at most one record per draft id: starting a
publish removes any previous record for the id and appends exactly one fresh
`posting` record (overwrite, not append), terminal updates never change the
id sequence, and a whole `publishThread` run preserves the uniqueness
invariant. -/
theorem publish_history_unique :
    (∀ (h : List PublishRecord) (id t : JValue), idsNodupB h = true →
      idsNodupB (applyStart h id t) = true)
    ∧ (∀ (h : List PublishRecord) (id t : JValue),
        (applyStart h id t).filter (fun p => jsEq p.draftId id) =
          [{ draftId := id, title := t, status := .posting, tweetUrl := .str ""
           , timestamp := .str "", errorMessage := .v (.str "") }])
    ∧ (∀ (h : List PublishRecord) (id : JValue) (o : PubOutcome),
        historyIds (applyOutcome h id o) = historyIds h)
    ∧ (∀ (h : List PublishRecord) (id : JValue) (e : EMsg),
        historyIds (applyFail h id e) = historyIds h)
    ∧ (∀ (parse : String → Option JValue) (st : PubState) (d : ThreadDraftS)
        (tr : Transport) (now : String), idsNodupB st.history = true →
        idsNodupB ((publishThreadRun parse st d tr now).1).history = true) :=
  ⟨idsNodupB_applyStart, applyStart_filter, historyIds_applyOutcome,
   historyIds_applyFail, idsNodupB_publishThreadRun⟩

/-- Witness for C9 at a concrete history and id. -/
theorem publish_history_unique_witness :
    idsNodupB (applyStart [] (.str "w9") (.str "t9")) = true :=
  publish_history_unique.1 [] (.str "w9") (.str "t9") rfl

/-- C10: invoking the single-item publish with a falsy draft id (absent,
i.e. `null`, or the empty string) is a complete no-op: the Agent Caller is
not invoked (the returned flag is `false`) and the publish history, the
in-flight id set and the active-agent indicator are all returned unchanged. -/
theorem publish_noop_empty_id (parse : String → Option JValue) (st : PubState)
    (d : ThreadDraftS) (tr : Transport) (now : String)
    (h : truthy (idOrEmpty d) = false) :
    publishThreadRun parse st d tr now = (st, false) := by
  simp [publishThreadRun, h]

/-- Witness for C10 at a draft with the empty-string id. -/
theorem publish_noop_empty_id_witness :
    publishThreadRun parseNone ⟨[], [], none⟩
      ⟨.str "", .str "t", .str "", .str "", .str "", .str "", false, .str "",
        .str "", 50⟩
      (.exn "network down") "N" = (⟨[], [], none⟩, false) :=
  publish_noop_empty_id parseNone ⟨[], [], none⟩
    ⟨.str "", .str "t", .str "", .str "", .str "", .str "", false, .str "",
      .str "", 50⟩
    (.exn "network down") "N" rfl

/-- C5: bulk publish walks the approved drafts in their stable order and
invokes the single-item publish (and with it the Agent Caller) for exactly
those drafts whose id has no existing `success` record in the (snapshot)
publish history, sequentially in list order; with three approved drafts of
which draft A already has a `success` record, exactly the other two are
invoked. -/
theorem bulk_publish_skips_successes :
    (∀ (approved : List ThreadDraftS) (history : List PublishRecord),
      bulkPublishInvocations approved history =
        approved.filter (fun d => !hasSuccessRecord history d))
    ∧ bulkPublishInvocations
        [ ⟨.str "A", .str "tA", .str "", .str "", .str "", .str "", false,
            .str "", .str "", 90⟩
        , ⟨.str "B", .str "tB", .str "", .str "", .str "", .str "", false,
            .str "", .str "", 85⟩
        , ⟨.str "C", .str "tC", .str "", .str "", .str "", .str "", false,
            .str "", .str "", 80⟩ ]
        [ ⟨.str "A", .str "tA", .success, .str "url-a", .str "ts-a",
            .v (.str "")⟩ ]
      = [ ⟨.str "B", .str "tB", .str "", .str "", .str "", .str "", false,
            .str "", .str "", 85⟩
        , ⟨.str "C", .str "tC", .str "", .str "", .str "", .str "", false,
            .str "", .str "", 80⟩ ] := by
  constructor
  · intro approved history
    induction approved with
    | nil => rfl
    | cons d ds ih =>
      simp only [bulkPublishInvocations, List.filter_cons]
      by_cases h : hasSuccessRecord history d
      · simp [h, ih]
      · simp [h, ih]
  · rfl

/-- C4: after a completed scan the Approval Set is exactly the set of ids of
sanitized drafts with `requires_review = false` and
`relevance_score >= autoApproveThreshold`; it is computed from the fresh scan
alone and wholesale replaces any previous approved ids; a draft with score 80
is approved at threshold 75 and not at threshold 85. -/
theorem auto_approval_set :
    (∀ (drafts : List ThreadDraftS) (thr : Int) (x : JValue),
      x ∈ computeAutoApproved drafts thr ↔
        ∃ d ∈ drafts,
          d.requires_review = false ∧ thr ≤ d.relevance_score ∧ d.id = x)
    ∧ (∀ (parse : String → Option JValue) (res : JValue) (thr : Int)
        (now : String) (data : ManagerResponseS) (app : List JValue),
        runScanSuccess parse res thr now = .completed data app →
          app = computeAutoApproved data.thread_drafts thr)
    ∧ (∀ (s1 s2 : ScanState) (data : ManagerResponseS) (app : List JValue),
        (applyScanOutcome s1 (.completed data app)).approvedDraftIds =
          (applyScanOutcome s2 (.completed data app)).approvedDraftIds)
    ∧ computeAutoApproved
        [⟨.str "a", .str "t", .str "", .str "", .str "", .str "", false,
          .str "", .str "", 80⟩] 75 = [.str "a"]
    ∧ computeAutoApproved
        [⟨.str "a", .str "t", .str "", .str "", .str "", .str "", false,
          .str "", .str "", 80⟩] 85 = [] := by
  refine ⟨?_, ?_, ?_, rfl, rfl⟩
  · intro drafts thr x
    unfold computeAutoApproved
    rw [mem_autoApprove_foldl thr drafts [] x]
    simp
  · intro parse res thr now data app h
    unfold runScanSuccess at h
    split at h
    · split at h
      · injection h with h1 h2
        subst h1
        subst h2
        rfl
      · exact absurd h (by simp)
    · exact absurd h (by simp)
  · intro s1 s2 data app; rfl

/-- Witness for C4: the approval set delivered by a concrete completed scan
is the auto-approval of its sanitized draft list. -/
theorem auto_approval_set_witness :
    ([] : List JValue) = computeAutoApproved
      (({ pipeline_status := .num 1
        , hn_results := ⟨[], .num 0, .num 0⟩
        , arxiv_results := ⟨[], .num 0, .num 0⟩
        , thread_drafts := []
        , total_drafts := .num 0
        , auto_approved := .num 0
        , flagged_for_review := .num 0
        , scan_timestamp := .str "T" } : ManagerResponseS)).thread_drafts 75 :=
  auto_approval_set.2.1 parseNone
    (.obj [("response", .obj [("result",
      .obj [("pipeline_status", .num 1), ("hn_results", .num 1)])])])
    75 "T"
    { pipeline_status := .num 1
    , hn_results := ⟨[], .num 0, .num 0⟩
    , arxiv_results := ⟨[], .num 0, .num 0⟩
    , thread_drafts := []
    , total_drafts := .num 0
    , auto_approved := .num 0
    , flagged_for_review := .num 0
    , scan_timestamp := .str "T" } [] rfl

/-- C1 (amended): for every scan whose agent call succeeded at the transport
level, the controller transitions to completed exactly when the extractor
found a match (an object containing the marker `pipeline_status`) AND at
least one of the three major sub-collections is present (an array-valued
`thread_drafts`, or a truthy `hn_results` or `arxiv_results`); otherwise it
transitions to failed with the error detail built from the free-text
fallback capped at 300 characters.  On completion the sanitized result is
stored together with the auto-approval set. -/
theorem scan_transition (parse : String → Option JValue) (res : JValue)
    (thr : Int) (now : String) :
    ((∃ data app, runScanSuccess parse res thr now = .completed data app) ↔
      (∃ rd, extractAgentData parse "pipeline_status" res = some rd ∧
        ((∃ ds, getField rd "thread_drafts" = some (.arr ds)) ∨
          truthyOpt (getField rd "hn_results") = true ∨
          truthyOpt (getField rd "arxiv_results") = true)))
    ∧ (∀ e, runScanSuccess parse res thr now = .failed e →
        e = "Agent returned data but no structured pipeline results were found. Raw: "
              ++ takeChars (scanRawText res) 300)
    ∧ (∀ rd, extractAgentData parse "pipeline_status" res = some rd →
        plausibleB rd = true →
        runScanSuccess parse res thr now =
          .completed (sanitizeManager rd now)
            (computeAutoApproved (sanitizeManager rd now).thread_drafts thr)) := by
  refine ⟨⟨?_, ?_⟩, ?_, ?_⟩
  · rintro ⟨data, app, hc⟩
    unfold runScanSuccess at hc
    split at hc
    next rd he =>
      split at hc
      next hp => exact ⟨rd, he, (plausibleB_iff rd).mp hp⟩
      next => exact absurd hc (by simp)
    next => exact absurd hc (by simp)
  · rintro ⟨rd, he, hdis⟩
    have hp := (plausibleB_iff rd).mpr hdis
    refine ⟨sanitizeManager rd now,
      computeAutoApproved (sanitizeManager rd now).thread_drafts thr, ?_⟩
    unfold runScanSuccess
    rw [he]
    simp only [hp, if_true]
  · intro e hf
    unfold runScanSuccess at hf
    split at hf
    next rd he =>
      split at hf
      next => exact absurd hf (by simp)
      next =>
        injection hf with h1
        rw [← h1]
        rfl
    next =>
      injection hf with h1
      rw [← h1]
      rfl
  · intro rd he hp
    unfold runScanSuccess
    rw [he]
    simp only [hp, if_true]

/-- C1 counterexample: an envelope whose extracted object carries the marker
`pipeline_status` but none of the three sub-collections.  Per the claim's
disjunctive reading (marker OR sub-collections) this is a plausible match and
the scan should complete, yet the code transitions to failed. -/
theorem scan_marker_only_fails :
    extractAgentData parseNone "pipeline_status"
        (.obj [("response", .obj [("result",
          .obj [("pipeline_status", .str "completed")])])])
      = some (.obj [("pipeline_status", .str "completed")])
    ∧ runScanSuccess parseNone
        (.obj [("response", .obj [("result",
          .obj [("pipeline_status", .str "completed")])])])
        75 "T"
      = .failed "Agent returned data but no structured pipeline results were found. Raw: " :=
  ⟨rfl, rfl⟩

/-- Witness for C1 (amended) at a concrete envelope with a truthy
`arxiv_results` sub-collection. -/
theorem scan_transition_witness :
    runScanSuccess parseNone
      (.obj [("response", .obj [("result",
        .obj [("pipeline_status", .num 2), ("arxiv_results", .num 3)])])])
      80 "W"
      = .completed
          (sanitizeManager
            (.obj [("pipeline_status", .num 2), ("arxiv_results", .num 3)]) "W")
          (computeAutoApproved
            (sanitizeManager
              (.obj [("pipeline_status", .num 2), ("arxiv_results", .num 3)])
                "W").thread_drafts 80) :=
  (scan_transition parseNone
    (.obj [("response", .obj [("result",
      .obj [("pipeline_status", .num 2), ("arxiv_results", .num 3)])])])
    80 "W").2.2
    (.obj [("pipeline_status", .num 2), ("arxiv_results", .num 3)]) rfl rfl

/-- C3: sanitization of an extracted candidate is total (a total function by
construction) and fully typed: `stories`, `papers` and `thread_drafts` are
coerced to `[]` when not array-valued; the draft list is mapped element-wise
with each element independently defaulted — a missing `id` becomes
`draft-<index+1>`, a missing or non-numeric (e.g. string) `relevance_score`
becomes 50 rather than being parsed, and `requires_review` is `true` only
when literally `true`; and the spec's concrete envelope extracts to its inner
object and sanitizes to exactly one draft with id `draft-1`, score 50 and
`requires_review = false`. -/
theorem sanitize_defaults :
    (∀ (rd : JValue) (now : String),
      isArrOpt (getField rd "thread_drafts") = false →
      (sanitizeManager rd now).thread_drafts = [])
    ∧ (∀ (rd : JValue) (now : String),
        isArrOpt ((getField rd "hn_results").bind
          (fun s => getField s "stories")) = false →
        (sanitizeManager rd now).hn_results.items = [])
    ∧ (∀ (rd : JValue) (now : String),
        isArrOpt ((getField rd "arxiv_results").bind
          (fun s => getField s "papers")) = false →
        (sanitizeManager rd now).arxiv_results.items = [])
    ∧ (∀ (rd : JValue) (now : String) (ds : List JValue),
        getField rd "thread_drafts" = some (.arr ds) →
        (sanitizeManager rd now).thread_drafts = ds.mapIdx sanitizeDraft)
    ∧ (∀ (idx : Nat) (d : JValue), getField d "id" = none →
        (sanitizeDraft idx d).id = .str ("draft-" ++ toString (idx + 1)))
    ∧ (∀ (idx : Nat) (d : JValue) (s : String),
        getField d "relevance_score" = some (.str s) →
        (sanitizeDraft idx d).relevance_score = 50)
    ∧ (∀ (idx : Nat) (d : JValue), getField d "relevance_score" = none →
        (sanitizeDraft idx d).relevance_score = 50)
    ∧ (∀ (idx : Nat) (d : JValue),
        ((sanitizeDraft idx d).requires_review = true ↔
          getField d "requires_review" = some (.bool true)))
    ∧ extractAgentData parseNone "pipeline_status"
        (.obj [("response", .obj [("result", .obj
          [("pipeline_status", .str "completed"),
           ("thread_drafts", .arr [.obj [("title", .str "X")]])])])])
      = some (.obj
          [("pipeline_status", .str "completed"),
           ("thread_drafts", .arr [.obj [("title", .str "X")]])])
    ∧ sanitizeManager (.obj
          [("pipeline_status", .str "completed"),
           ("thread_drafts", .arr [.obj [("title", .str "X")]])]) "T"
      = { pipeline_status := .str "completed"
        , hn_results := ⟨[], .num 0, .num 0⟩
        , arxiv_results := ⟨[], .num 0, .num 0⟩
        , thread_drafts := [⟨.str "draft-1", .str "X", .str "TECH DEEP DIVE",
            .str "", .str "", .str "", false, .str "", .str "", 50⟩]
        , total_drafts := .num 1
        , auto_approved := .num 0
        , flagged_for_review := .num 0
        , scan_timestamp := .str "T" } := by
  refine ⟨?_, ?_, ?_, ?_, ?_, ?_, ?_, ?_, rfl, rfl⟩
  · intro rd now h
    cases hg : getField rd "thread_drafts" with
    | none => simp [sanitizeManager, hg]
    | some v => cases v <;> simp_all [sanitizeManager, isArrOpt]
  · intro rd now h
    cases hg : getField rd "hn_results" with
    | none => simp [sanitizeManager, sanitizeSub, hg]
    | some v =>
      cases hs : getField v "stories" with
      | none => simp [sanitizeManager, sanitizeSub, hg, hs]
      | some w =>
        replace h : isArrOpt (getField v "stories") = false := by
          rw [hg] at h; exact h
        rw [hs] at h
        cases w <;> simp_all [sanitizeManager, sanitizeSub, isArrOpt]
  · intro rd now h
    cases hg : getField rd "arxiv_results" with
    | none => simp [sanitizeManager, sanitizeSub, hg]
    | some v =>
      cases hs : getField v "papers" with
      | none => simp [sanitizeManager, sanitizeSub, hg, hs]
      | some w =>
        replace h : isArrOpt (getField v "papers") = false := by
          rw [hg] at h; exact h
        rw [hs] at h
        cases w <;> simp_all [sanitizeManager, sanitizeSub, isArrOpt]
  · intro rd now ds h
    simp [sanitizeManager, h]
  · intro idx d h
    simp [sanitizeDraft, h, jsNullish]
  · intro idx d s h
    simp [sanitizeDraft, h]
  · intro idx d h
    simp [sanitizeDraft, h]
  · intro idx d
    cases hg : getField d "requires_review" with
    | none => simp [sanitizeDraft, hg]
    | some v =>
      cases v with
      | bool b => cases b <;> simp [sanitizeDraft, hg]
      | null => simp [sanitizeDraft, hg]
      | num n => simp [sanitizeDraft, hg]
      | str s => simp [sanitizeDraft, hg]
      | arr xs => simp [sanitizeDraft, hg]
      | obj fs => simp [sanitizeDraft, hg]

/-- Witness for C3: a draft with no fields at all receives the generated id. -/
theorem sanitize_defaults_witness :
    (sanitizeDraft 0 (.obj [])).id = .str ("draft-" ++ toString (0 + 1)) :=
  sanitize_defaults.2.2.2.2.1 0 (.obj []) rfl

/-- C6: for a single-item publish whose agent call succeeded at the transport
level: with a structured match (marker `post_status`) the terminal status is
`success` iff the field's value lowercases to the literal `success` (and the
external url and timestamp are stored from the match); the non-string-field
`TypeError` path ends as a failed record; without a structured match the
status is `success` with empty external url iff the free-text reply
case-insensitively contains one of `posted`, `tweet`, `success`, and
otherwise `failed` with the truncated raw text as error detail; the spec's
keyword-fallback scenario ends `success` with empty url. -/
theorem publish_decision :
    (∀ (parse : String → Option JValue) (res : JValue) (now : String)
        (td : JValue) (o : PubOutcome),
      extractAgentData parse "post_status" res = some td →
      decidePublishSuccess parse res now = .outcome o →
        ((o.status = .success ↔ postStatusLower td = some "success")
          ∧ o.tweetUrl = jsNullish (getField td "tweet_url") (.str "")
          ∧ o.timestamp = jsNullish (getField td "timestamp") (.str now)))
    ∧ (∀ (parse : String → Option JValue) (res : JValue) (now : String)
        (td : JValue),
        extractAgentData parse "post_status" res = some td →
        postStatusLower td = none →
        decidePublishSuccess parse res now = .typeError)
    ∧ (∀ (parse : String → Option JValue) (st : PubState) (d : ThreadDraftS)
        (res : JValue) (now : String),
        decidePublishSuccess parse res now = .typeError →
        truthy (idOrEmpty d) = true →
        truthyOpt (getField res "success") = true →
        ∀ p ∈ (publishThreadRun parse st d (.ok res) now).1.history,
          jsEq p.draftId (idOrEmpty d) = true → p.status = .failed)
    ∧ (∀ (parse : String → Option JValue) (res : JValue) (now : String),
        extractAgentData parse "post_status" res = none →
        decidePublishSuccess parse res now = .outcome
          { status := if looksSuccessfulB (msgTextOf res) then .success else .failed
          , tweetUrl := .str ""
          , timestamp := .str now
          , errorMessage := .v (.str (if looksSuccessfulB (msgTextOf res) then ""
              else "Unstructured response: "
                ++ takeChars (jsToString (msgTextOf res)) 200)) })
    ∧ (∀ s : String, looksSuccessfulB (.str s) =
        (strContains (lowerStr s) "posted" || strContains (lowerStr s) "tweet"
          || strContains (lowerStr s) "success"))
    ∧ decidePublishSuccess parseNone
        (.obj [("response", .obj [("message", .str "Tweet posted successfully!")])])
        "N"
      = .outcome { status := .success, tweetUrl := .str "", timestamp := .str "N"
                 , errorMessage := .v (.str "") } := by
  refine ⟨?_, ?_, ?_, ?_, fun s => rfl, rfl⟩
  · intro parse res now td o he ho
    simp only [decidePublishSuccess, he] at ho
    cases hl : postStatusLower td with
    | none => simp only [hl] at ho; exact absurd ho (by simp)
    | some s =>
      simp only [hl] at ho
      injection ho with h1
      subst h1
      refine ⟨?_, rfl, rfl⟩
      constructor
      · intro hst
        by_cases hse : s = "success"
        · rw [hse]
        · simp only [if_neg hse] at hst
          exact absurd hst (by simp)
      · intro hps
        injection hps with h2
        simp [h2]
  · intro parse res now td he hl
    simp [decidePublishSuccess, he, hl]
  · intro parse st d res now hd hid hs p hp hm
    have hh : (publishThreadRun parse st d (.ok res) now).1.history =
        applyFail (applyStart st.history (idOrEmpty d) (titleOrUntitled d))
          (idOrEmpty d) .exnText := by
      simp [publishThreadRun, hid, hs, hd]
    rw [hh] at hp
    exact mem_applyFail_matching hp hm
  · intro parse res now he
    simp only [decidePublishSuccess, he]
    by_cases hl : looksSuccessfulB (msgTextOf res) <;> simp [hl]

/-- Witness for C6 at a concrete structured envelope. -/
theorem publish_decision_witness :
    ((PubStatus.success = PubStatus.success ↔
        postStatusLower (.obj [("post_status", .str "Success"),
          ("tweet_url", .str "u"), ("timestamp", .str "ts")]) = some "success")
      ∧ (JValue.str "u") = jsNullish
          (getField (.obj [("post_status", .str "Success"),
            ("tweet_url", .str "u"), ("timestamp", .str "ts")]) "tweet_url")
          (.str "")
      ∧ (JValue.str "ts") = jsNullish
          (getField (.obj [("post_status", .str "Success"),
            ("tweet_url", .str "u"), ("timestamp", .str "ts")]) "timestamp")
          (.str "N")) :=
  publish_decision.1 parseNone
    (.obj [("response", .obj [("result",
      .obj [("post_status", .str "Success"), ("tweet_url", .str "u"),
        ("timestamp", .str "ts")])])])
    "N"
    (.obj [("post_status", .str "Success"), ("tweet_url", .str "u"),
      ("timestamp", .str "ts")])
    { status := .success, tweetUrl := .str "u", timestamp := .str "ts"
    , errorMessage := .v (.str "") } rfl rfl

/-- C7: extraction is order-deterministic.  Within `deepSearch`, the wrapper
probe returns the first non-null outcome in the fixed key order `result`,
`response`, `data`, `output`, `content`, `message`, `text`, `raw_response`
(so with candidates under both `data` and `result`, the `result` one wins
regardless of field order); and at the call site the five fallback locations
are tried in order — direct `result.response.result`, deep search within it,
deep search of `result.response`, deep search of a truthy
`result.raw_response`, deep search of the whole envelope — with the first
non-null outcome winning. -/
theorem probe_and_path_order :
    (∀ (parse : String → Option JValue) (key : String) (f : Nat)
        (fields : List (String × JValue)),
      probeList (fun w => deepSearch parse key f w) fields wrapperKeys =
        (wrapperKeys.filterMap (fun k =>
          match fields.lookup k with
          | some w => if isNull w then none else deepSearch parse key f w
          | none => none)).head?)
    ∧ (∀ (parse : String → Option JValue) (key : String) (f : Nat)
        (A B : JValue), isMatchB key A = true →
        isMatchB key (JValue.obj [("data", B), ("result", A)]) = false →
        deepSearch parse key (f + 2) (.obj [("data", B), ("result", A)]) = some A)
    ∧ (∀ (parse : String → Option JValue) (key : String) (res : JValue),
        truthy res = true →
        extractAgentData parse key res =
          Option.orElse
            (match getPath2 res "response" "result" with
             | some d => if isMatchB key d then some d else none
             | none => none)
            (fun _ => Option.orElse
              (match getPath2 res "response" "result" with
               | some d => deepSearch parse key 7 d
               | none => none)
              (fun _ => Option.orElse
                (match getField res "response" with
                 | some d => deepSearch parse key 7 d
                 | none => none)
                (fun _ => Option.orElse
                  (if truthyOpt (getField res "raw_response") then
                    match getField res "raw_response" with
                    | some d => deepSearch parse key 7 d
                    | none => none
                  else none)
                  (fun _ => deepSearch parse key 7 res))))) := by
  refine ⟨fun parse key f fields => probeList_eq_head _ fields wrapperKeys, ?_, ?_⟩
  · intro parse key f A B hA hno
    obtain ⟨fsA, rfl, _⟩ := isMatchB_shape hA
    have h1 : deepSearch parse key (f + 1) (.obj fsA) = some (.obj fsA) :=
      deepSearch_of_isMatch hA
    have hlk : List.lookup "result" [("data", B), ("result", JValue.obj fsA)]
        = some (JValue.obj fsA) := rfl
    rw [show f + 2 = (f + 1) + 1 from rfl]
    conv_lhs => rw [deepSearch]
    simp [truthy, hno, wrapperKeys, probeList, hlk, isNull, h1]
  · intro parse key res ht
    unfold extractAgentData
    simp only [ht, if_true]
    cases h1 : (match getPath2 res "response" "result" with
        | some d => if isMatchB key d then some d else none
        | none => none) with
    | some d => simp only [h1, Option.orElse]
    | none =>
      simp only [h1, Option.orElse]
      cases h2 : (match getPath2 res "response" "result" with
          | some d => deepSearch parse key 7 d
          | none => none) with
      | some r => simp only [h2, Option.orElse]
      | none =>
        simp only [h2, Option.orElse]
        cases h3 : (match getField res "response" with
            | some d => deepSearch parse key 7 d
            | none => none) with
        | some r => simp only [h3, Option.orElse]
        | none =>
          simp only [h3, Option.orElse]
          cases h4 : (if truthyOpt (getField res "raw_response") then
              match getField res "raw_response" with
              | some d => deepSearch parse key 7 d
              | none => none
            else none) with
          | some r => simp only [h4, Option.orElse]
          | none => simp only [h4, Option.orElse]

/-- Witness for C7: with matches under both `data` and `result`, the probe
returns the `result` candidate. -/
theorem probe_and_path_order_witness :
    deepSearch parseNone "w7" 2
        (.obj [("data", .obj [("w7", .num 9)]), ("result", .obj [("w7", .num 1)])])
      = some (.obj [("w7", .num 1)]) :=
  probe_and_path_order.2.1 parseNone "w7" 0 (.obj [("w7", .num 1)])
    (.obj [("w7", .num 9)]) rfl rfl
